import Mathlib

/-!
Verification development for an e-commerce storefront backend
(cart operations, coupon/checkout flow, analytics, token refresh).
Each definition is a shallow embedding of the corresponding
JavaScript controller function or Mongoose model.
-/

namespace ECom

/-! ## Cart aggregate (src/backend/controllers/auth.controller.js, cart part)

A user's cart is the `cartItems` array embedded on the user document:
entries of `{ quantity : Number (default 1), product : ObjectId }`.
The controllers identify a line by `item.id`; we carry that identifier
as a `String` and the quantity as an `Int` (a JS number; the schema
declares no minimum). -/

structure CartItem where
  id : String
  quantity : Int
deriving Repr, DecidableEq

/-- Embeds `user.cartItems.find(item => item.id === productId)`. -/
def findItem (cart : List CartItem) (productId : String) : Option CartItem :=
  cart.find? (fun item => item.id == productId)

/-- In-place mutation of the first matching line (`existingItem.quantity += 1`). -/
def incrementFirst : List CartItem → String → List CartItem
  | [], _ => []
  | item :: rest, productId =>
    if item.id == productId then
      { item with quantity := item.quantity + 1 } :: rest
    else
      item :: incrementFirst rest productId

/-- In-place mutation of the first matching line (`existingItem.quantity = quantity`). -/
def setQuantityFirst : List CartItem → String → Int → List CartItem
  | [], _, _ => []
  | item :: rest, productId, quantity =>
    if item.id == productId then
      { item with quantity := quantity } :: rest
    else
      item :: setQuantityFirst rest productId quantity

/-- Operation `addToCart`: increment the existing line for the product, or push a new
line; a pushed line gets quantity 1 by the schema default. -/
def addToCart (cart : List CartItem) (productId : String) : List CartItem :=
  match findItem cart productId with
  | some _ => incrementFirst cart productId
  | none => cart ++ [⟨productId, 1⟩]

/-- Outcome of a cart request: the HTTP status and the JSON body shape. -/
inductive CartResponse where
  | ok (cart : List CartItem)
  | notFound (message : String)
deriving Repr, DecidableEq

/-- Operation `updateQuantity` (PUT /cart/:id): quantity 0 filters the line out,
any other quantity overwrites the line; a missing line is a 404 with
message "Product not found in cart" and no save. Returns the response
together with the resulting cart state. -/
def updateQuantity (cart : List CartItem) (productId : String) (quantity : Int) :
    CartResponse × List CartItem :=
  match findItem cart productId with
  | some _ =>
    if quantity = 0 then
      let c := cart.filter (fun item => !(item.id == productId))
      (.ok c, c)
    else
      let c := setQuantityFirst cart productId quantity
      (.ok c, c)
  | none => (.notFound "Product not found in cart", cart)

/-- Operation `removeAllFromCart` (DELETE /cart): without a product id the cart is
emptied, with one the matching line is filtered out. -/
def removeAllFromCart (cart : List CartItem) (productId : Option String) :
    List CartItem :=
  match productId with
  | none => []
  | some pid => cart.filter (fun item => !(item.id == pid))

/-- A cart mutation as exposed by the routes. -/
inductive CartOp where
  | add (productId : String)
  | setQ (productId : String) (quantity : Int)
  | clear (productId : Option String)
deriving Repr, DecidableEq

def applyOp (cart : List CartItem) : CartOp → List CartItem
  | .add pid => addToCart cart pid
  | .setQ pid q => (updateQuantity cart pid q).2
  | .clear pid => removeAllFromCart cart pid

def applyOps (ops : List CartOp) (cart : List CartItem) : List CartItem :=
  ops.foldl applyOp cart

/-- Every line of the cart has quantity at least 1. -/
def CartWF (cart : List CartItem) : Prop :=
  ∀ item ∈ cart, 1 ≤ item.quantity

instance (cart : List CartItem) : Decidable (CartWF cart) := by
  unfold CartWF; infer_instance

/-- An operation whose requested quantity is nonnegative (0 deletes the line). -/
def opNonneg : CartOp → Prop
  | .setQ _ q => 0 ≤ q
  | _ => True

/-! ## Coupons (src/backend/models coupon schema, coupon.controller.js,
payment.controller.js)

Timestamps are integers in milliseconds (`Date.now()`), user ids are
abstract naturals, money amounts are rationals (JS numbers in the source),
with `Math.round` made explicit where the source calls it. -/

/-- Semantics of JavaScript `Math.round`: round half towards positive infinity. -/
def jsRound (q : ℚ) : ℤ := ⌊q + 1 / 2⌋

/-- Modelled from the spec: the coupon model file itself is not among the
sources (only its callers are). Per the spec, a coupon has a code, a
discount percentage, an expiration timestamp, an owning user reference and
an `isActive` flag; a freshly awarded coupon is active. -/
structure Coupon where
  code : String
  discountPercentage : Int
  expirationDate : Int
  userId : Nat
  isActive : Bool
deriving Repr, DecidableEq

/-- Coupons in the database that reference the given user. -/
def couponsOf (store : List Coupon) (userId : Nat) : List Coupon :=
  store.filter (fun c => c.userId == userId)

/-- Active coupons in the database that reference the given user. -/
def activeCouponsOf (store : List Coupon) (userId : Nat) : List Coupon :=
  store.filter (fun c => c.userId == userId && c.isActive)

/-- Operation `getCoupon` (GET /coupon): `Coupon.findOne({ userId, isActive: true })`,
answering the coupon or null. -/
def getCoupon (store : List Coupon) (userId : Nat) : Option Coupon :=
  store.find? (fun c => c.userId == userId && c.isActive)

/-- Embeds `Coupon.findOneAndDelete({ userId })`: remove the first document
referencing the user, active or not. -/
def eraseFirstByUser : List Coupon → Nat → List Coupon
  | [], _ => []
  | c :: rest, userId =>
    if c.userId == userId then rest
    else c :: eraseFirstByUser rest userId

/-- Suffix of the generated coupon code:
`Math.random().toString(36).substring(2, 8).toUpperCase()`. The base-36
rendering of the random number is `"0."` followed by its fractional digits
(`digits` here), so `substring(2, 8)` keeps the first six of those digits —
fewer when the expansion is shorter. `toUpperCase` uppercases character by
character, written here as a map over the string's characters. -/
def randomCodeTail (digits : String) : String :=
  String.mk ((digits.take 6).data.map Char.toUpper)

/-- Utility `createNewCoupon(userId)`: delete whatever coupon the user has,
then save a fresh one — code "GIFT" plus the random tail, 10 percent off,
expiring 30 days from now. Returns the new coupon and the updated store. -/
def createNewCoupon (store : List Coupon) (userId : Nat) (now : Int)
    (digits : String) : Coupon × List Coupon :=
  let newCoupon : Coupon :=
    { code := "GIFT" ++ randomCodeTail digits
      discountPercentage := 10
      expirationDate := now + 30 * 24 * 60 * 60 * 1000
      userId := userId
      isActive := true }
  (newCoupon, eraseFirstByUser store userId ++ [newCoupon])

/-- Embeds `Coupon.findOneAndUpdate({ code, userId }, { isActive: false })`
from `checkoutSuccess`: deactivate the first matching document. -/
def deactivateFirst : List Coupon → String → Nat → List Coupon
  | [], _, _ => []
  | c :: rest, code, userId =>
    if c.code == code && c.userId == userId then
      { c with isActive := false } :: rest
    else c :: deactivateFirst rest code userId

/-! ## Checkout session (payment.controller.js, createCheckoutSession) -/

/-- A line of the request body's products array. -/
structure ProductLine where
  name : String
  price : ℚ
  quantity : Int
deriving Repr, DecidableEq

/-- Running total built while mapping products to Stripe line items:
`totalAmount += Math.round(product.price * 100) * product.quantity`. -/
def preDiscountTotal (products : List ProductLine) : Int :=
  (products.map (fun p => jsRound (p.price * 100) * p.quantity)).sum

/-- JavaScript truthiness of the optional coupon code (`if (couponCode)`):
absent and empty strings are falsy. -/
def truthyCode : Option String → Bool
  | none => false
  | some s => !s.isEmpty

/-- Result of `createCheckoutSession`: HTTP status, the `totalAmount`
value in cents that the handler compares against the award threshold
(the response body carries `totalAmount / 100`), the coupon applied,
whether the award branch ran, and the coupon store afterwards. -/
structure CheckoutResult where
  status : Nat
  totalAmountCents : Int
  couponApplied : Option Coupon
  couponAwarded : Bool
  store : List Coupon
deriving Repr, DecidableEq

/-- Operation `createCheckoutSession` (POST /payments/checkout-session).
Rejects an empty products array with 400; sums
`Math.round(price * 100) * quantity`; when a truthy coupon code matches an
active coupon of the requesting user, reassigns
`totalAmount = Math.round(totalAmount * discountPercentage / 100)`; awards a
new coupon when the resulting `totalAmount` reaches 20000 cents. -/
def createCheckoutSession (store : List Coupon) (userId : Nat) (now : Int)
    (digits : String) (products : List ProductLine) (couponCode : Option String) :
    CheckoutResult :=
  if products.isEmpty then
    { status := 400, totalAmountCents := 0, couponApplied := none
      couponAwarded := false, store := store }
  else
    let tot := preDiscountTotal products
    let coupon : Option Coupon :=
      if truthyCode couponCode then
        store.find? (fun c =>
          some c.code == couponCode && c.userId == userId && c.isActive)
      else none
    let totalAmount : Int :=
      match coupon with
      | some c => jsRound ((tot : ℚ) * (c.discountPercentage : ℚ) / 100)
      | none => tot
    { status := 200
      totalAmountCents := totalAmount
      couponApplied := coupon
      couponAwarded := decide (20000 ≤ totalAmount)
      store := if 20000 ≤ totalAmount then
          (createNewCoupon store userId now digits).2
        else store }

/-! ## Analytics (analytics.controller.js)

Dates are modelled at the granularity the daily series works at: a UTC
calendar day is a natural number, and stepping `currentDate` by
`setDate(getDate() + 1)` is `+ 1`. An order carries its `totalAmount`
and the calendar day of its `createdAt` timestamp. -/

structure Order where
  totalAmount : ℚ
  createdAtDay : Nat
deriving Repr, DecidableEq

/-- One element of the daily series: the `{ date, sales, revenue }` objects
built by `getDailySalesData` (and the shape of a `$group` bucket). -/
structure DailyStat where
  date : Nat
  sales : Nat
  revenue : ℚ
deriving Repr, DecidableEq

/-- Helper `getDatesInRange`: push the current day and advance one day while
`currentDate <= endDate`. -/
def getDatesInRange (startDate endDate : Nat) : List Nat :=
  if h : startDate ≤ endDate then
    startDate :: getDatesInRange (startDate + 1) endDate
  else []
termination_by endDate + 1 - startDate
decreasing_by omega

/-- Embeds the `$match` stage: orders whose `createdAt` lies between the
start and end dates inclusive. -/
def matchedOrders (orders : List Order) (startDate endDate : Nat) : List Order :=
  orders.filter (fun o =>
    decide (startDate ≤ o.createdAtDay) && decide (o.createdAtDay ≤ endDate))

/-- Orders grouped under one calendar-day bucket key. -/
def ordersOnDay (orders : List Order) (d : Nat) : List Order :=
  orders.filter (fun o => o.createdAtDay == d)

/-- Denotation of the `$match`/`$group`/`$sort` pipeline of
`getDailySalesData`: one bucket per calendar day having at least one
matched order, with the order count as `sales` and the summed
`totalAmount` as `revenue`, keys ascending. Matched orders have their day
inside the range, so the ascending bucket keys are exactly the in-range
days whose order set is non-empty. -/
def dailySalesAgg (orders : List Order) (startDate endDate : Nat) :
    List DailyStat :=
  (getDatesInRange startDate endDate).filterMap (fun d =>
    let dayOrders := ordersOnDay (matchedOrders orders startDate endDate) d
    if dayOrders.isEmpty then none
    else some ⟨d, dayOrders.length, (dayOrders.map Order.totalAmount).sum⟩)

/-- Operation `getDailySalesData(startDate, endDate)`: run the aggregation,
then map over every date in the range, looking the date up in the
aggregation result and defaulting sales and revenue to 0 when absent. -/
def getDailySalesData (orders : List Order) (startDate endDate : Nat) :
    List DailyStat :=
  (getDatesInRange startDate endDate).map (fun date =>
    match (dailySalesAgg orders startDate endDate).find?
        (fun data => data.date == date) with
    | some foundData => ⟨date, foundData.sales, foundData.revenue⟩
    | none => ⟨date, 0, 0⟩)

/-! ## Session/token manager (auth.controller.js)

A signed JWT is modelled as its payload (`userId`), the secret that signed
it and its expiry instant; `jwt.verify` succeeds exactly when the secret
matches and the token is unexpired, and throws otherwise (surfacing as the
handler's catch-all 500). The Redis mirror of the refresh token is an
association list from user id to the token plus the cache entry's expiry
(the `"EX" 7 * 24 * 60 * 60` time-to-live). -/

structure Token where
  userId : Nat
  secret : String
  expiresAt : Int
deriving Repr, DecidableEq

/-- Secret behind `process.env.ACCESS_TOKEN_SECRET`. -/
def accessTokenSecret : String := "ACCESS_TOKEN_SECRET"

/-- Secret behind `process.env.REFRESH_TOKEN_SECRET`. -/
def refreshTokenSecret : String := "REFRESH_TOKEN_SECRET"

/-- Embeds `jwt.sign({ userId }, secret, { expiresIn: ttl })`. -/
def jwtSign (userId : Nat) (secret : String) (now ttl : Int) : Token :=
  { userId := userId, secret := secret, expiresAt := now + ttl }

/-- Embeds `jwt.verify(token, secret)`: the decoded `userId` on success,
none when the signature or expiry check fails. -/
def jwtVerify (t : Token) (secret : String) (now : Int) : Option Nat :=
  if t.secret == secret && decide (now < t.expiresAt) then some t.userId
  else none

/-- A cache entry: the stored refresh token and the entry's own expiry. -/
structure RefreshEntry where
  token : Token
  expiresAt : Int
deriving Repr, DecidableEq

/-- Redis keys `refresh_token:<userId>` and their entries. -/
abbrev RedisState := List (Nat × RefreshEntry)

/-- Embeds `redis.get` with time-to-live semantics: the stored token while
the entry is unexpired, null otherwise. -/
def redisGet (st : RedisState) (userId : Nat) (now : Int) : Option Token :=
  match st.find? (fun kv => kv.1 == userId) with
  | some kv => if decide (now < kv.2.expiresAt) then some kv.2.token else none
  | none => none

/-- Outcomes of the refresh-token endpoint: 401 without a cookie, 401 on a
cache mismatch, 500 when `jwt.verify` throws, 200 with the new access
token set as a cookie. -/
inductive RefreshResult where
  | noToken
  | invalidToken
  | serverError
  | refreshed (accessToken : Token)
deriving Repr, DecidableEq

/-- Operation `refreshToken` (POST /auth/refresh-token): verify the cookie
against the refresh secret, compare it with the cached token for the
decoded user, and on a match sign and set a fresh 15-minute access token.
Returns the response together with the (never written) cache state. -/
def refreshTokenEndpoint (st : RedisState) (cookie : Option Token) (now : Int) :
    RefreshResult × RedisState :=
  match cookie with
  | none => (.noToken, st)
  | some rt =>
    match jwtVerify rt refreshTokenSecret now with
    | none => (.serverError, st)
    | some uid =>
      if some rt = redisGet st uid now then
        (.refreshed (jwtSign uid accessTokenSecret now (15 * 60 * 1000)), st)
      else (.invalidToken, st)

/-! ## Lemmas about the cart operations -/

theorem cartWF_incrementFirst {cart : List CartItem} {pid : String}
    (h : CartWF cart) : CartWF (incrementFirst cart pid) := by
  induction cart with
  | nil => simpa [incrementFirst] using h
  | cons item rest ih =>
    intro it hit
    by_cases hid : item.id == pid
    · simp only [incrementFirst, hid, if_pos] at hit
      rcases List.mem_cons.mp hit with h1 | h1
      · subst h1
        have := h item (List.mem_cons_self ..)
        simp only
        omega
      · exact h it (List.mem_cons_of_mem _ h1)
    · simp only [incrementFirst, hid, if_neg, Bool.false_eq_true,
        not_false_iff] at hit
      rcases List.mem_cons.mp hit with h1 | h1
      · exact h it (h1 ▸ List.mem_cons_self ..)
      · exact ih (fun x hx => h x (List.mem_cons_of_mem _ hx)) it h1

theorem cartWF_setQuantityFirst {cart : List CartItem} {pid : String} {q : Int}
    (h : CartWF cart) (hq : 1 ≤ q) : CartWF (setQuantityFirst cart pid q) := by
  induction cart with
  | nil => simpa [setQuantityFirst] using h
  | cons item rest ih =>
    intro it hit
    by_cases hid : item.id == pid
    · simp only [setQuantityFirst, hid, if_pos] at hit
      rcases List.mem_cons.mp hit with h1 | h1
      · subst h1; exact hq
      · exact h it (List.mem_cons_of_mem _ h1)
    · simp only [setQuantityFirst, hid, if_neg, Bool.false_eq_true,
        not_false_iff] at hit
      rcases List.mem_cons.mp hit with h1 | h1
      · exact h it (h1 ▸ List.mem_cons_self ..)
      · exact ih (fun x hx => h x (List.mem_cons_of_mem _ hx)) it h1

theorem cartWF_filter {cart : List CartItem} {p : CartItem → Bool}
    (h : CartWF cart) : CartWF (cart.filter p) :=
  fun it hit => h it (List.mem_of_mem_filter hit)

theorem cartWF_addToCart {cart : List CartItem} {pid : String}
    (h : CartWF cart) : CartWF (addToCart cart pid) := by
  unfold addToCart
  cases findItem cart pid with
  | some it => exact cartWF_incrementFirst h
  | none =>
    intro it hit
    rcases List.mem_append.mp hit with h1 | h1
    · exact h it h1
    · simp only [List.mem_singleton] at h1
      subst h1
      exact Int.le_refl 1

theorem cartWF_updateQuantity {cart : List CartItem} {pid : String} {q : Int}
    (h : CartWF cart) (hq : 0 ≤ q) : CartWF ((updateQuantity cart pid q).2) := by
  unfold updateQuantity
  cases findItem cart pid with
  | none => exact h
  | some it =>
    by_cases hz : q = 0
    · simp only [hz, if_pos]
      exact cartWF_filter h
    · simp only [hz, if_neg, not_false_iff]
      exact cartWF_setQuantityFirst h (by omega)

theorem cartWF_removeAllFromCart {cart : List CartItem} {pid : Option String}
    (h : CartWF cart) : CartWF (removeAllFromCart cart pid) := by
  cases pid with
  | none => intro it hit; simp [removeAllFromCart] at hit
  | some p => exact cartWF_filter h

theorem cartWF_applyOp {cart : List CartItem} {op : CartOp}
    (h : CartWF cart) (hop : opNonneg op) : CartWF (applyOp cart op) := by
  cases op with
  | add pid => exact cartWF_addToCart h
  | setQ pid q => exact cartWF_updateQuantity h hop
  | clear pid => exact cartWF_removeAllFromCart h

/-- Filtering out a product id leaves no line with that id findable. -/
theorem findItem_filter_ne (cart : List CartItem) (p : String) :
    findItem (cart.filter (fun item => !(item.id == p))) p = none := by
  apply List.find?_eq_none.mpr
  intro it hit
  have := List.of_mem_filter hit
  simpa using this

/-- The quantity-0 branch of `updateQuantity` (or the untouched 404 branch)
never leaves a line for the product behind, provided none was findable or
the filter ran; stated unconditionally. -/
theorem findItem_updateQuantity_zero (cart : List CartItem) (p : String) :
    findItem ((updateQuantity cart p 0).2) p = none := by
  unfold updateQuantity
  cases hfind : findItem cart p with
  | none => exact hfind
  | some it =>
    simp only [if_pos rfl]
    exact findItem_filter_ne cart p

theorem findItem_append_single (cart : List CartItem) (p : String)
    (it : CartItem) (h : findItem cart p = none) (hit : it.id = p) :
    findItem (cart ++ [it]) p = some it := by
  unfold findItem at h ⊢
  rw [List.find?_append, h, Option.none_or]
  exact List.find?_cons_of_pos _ (by simp [hit])

theorem incrementFirst_append_no_match (cart : List CartItem) (p : String)
    (q : Int) (h : findItem cart p = none) :
    incrementFirst (cart ++ [⟨p, q⟩]) p = cart ++ [⟨p, q + 1⟩] := by
  induction cart with
  | nil => simp [incrementFirst]
  | cons x rest ih =>
    unfold findItem at h
    cases hx : (x.id == p) with
    | true =>
      rw [@List.find?_cons_of_pos _ (fun item => item.id == p) x rest hx] at h
      exact Option.noConfusion h
    | false =>
      rw [List.find?_cons_of_neg _ (by simp [hx])] at h
      simp only [List.cons_append, incrementFirst, hx, Bool.false_eq_true,
        if_neg, not_false_iff]
      rw [List.append_eq, ih h]

instance (op : CartOp) : Decidable (opNonneg op) :=
  match op with
  | .add _ => inferInstanceAs (Decidable True)
  | .setQ _ q => inferInstanceAs (Decidable (0 ≤ q))
  | .clear _ => inferInstanceAs (Decidable True)

/-! ## Claims about the cart -/

/-- C3 (counterexample): a `setQuantity` with the nonzero quantity -1 stores
the negative quantity on the line, so a sequence of cart operations can
leave a line with quantity below 1. -/
theorem c3_negative_quantity_counterexample :
    (-1 : Int) ≠ 0 ∧
    applyOps [CartOp.add "p", CartOp.setQ "p" (-1)] [] = [⟨"p", -1⟩] ∧
    ¬ CartWF (applyOps [CartOp.add "p", CartOp.setQ "p" (-1)] []) :=
  ⟨by decide, by rfl, by decide⟩

/-- C3 (amended): for every sequence of cart operations whose `setQuantity`
quantities are nonnegative, applied to a cart whose lines all have
quantity at least 1, every line afterwards has quantity at least 1; and
`setQuantity(p, 0)` always leaves no findable line for `p`. -/
theorem c3_cart_quantity_invariant (ops : List CartOp) (cart : List CartItem)
    (hc : CartWF cart) (hops : ∀ op ∈ ops, opNonneg op) :
    CartWF (applyOps ops cart) ∧
    ∀ p, findItem ((updateQuantity cart p 0).2) p = none := by
  constructor
  · induction ops generalizing cart with
    | nil => exact hc
    | cons op rest ih =>
      exact ih (applyOp cart op)
        (cartWF_applyOp hc (hops op (List.mem_cons_self ..)))
        (fun o ho => hops o (List.mem_cons_of_mem _ ho))
  · intro p
    exact findItem_updateQuantity_zero cart p

/-- Witness for C3 (amended) at a concrete cart and operation sequence. -/
theorem c3_cart_quantity_invariant_witness :
    CartWF (applyOps [CartOp.add "p", CartOp.setQ "p" 2] []) ∧
    ∀ p, findItem ((updateQuantity [] p 0).2) p = none :=
  c3_cart_quantity_invariant [CartOp.add "p", CartOp.setQ "p" 2] []
    (by decide) (by decide)

/-- C6: adding a product twice to a cart with no line for it yields a line
with quantity exactly 2, and setting quantity 0 on a cart that has a line
for the product leaves no line for it. -/
theorem c6_add_twice_and_zero (cart cart2 : List CartItem) (p : String)
    (h1 : findItem cart p = none) (h2 : findItem cart2 p ≠ none) :
    findItem (addToCart (addToCart cart p) p) p = some ⟨p, 2⟩ ∧
    findItem ((updateQuantity cart2 p 0).2) p = none := by
  refine ⟨?_, findItem_updateQuantity_zero cart2 p⟩
  have hadd1 : addToCart cart p = cart ++ [⟨p, 1⟩] := by
    unfold addToCart
    rw [h1]
  have hfind1 : findItem (cart ++ [⟨p, 1⟩]) p = some ⟨p, 1⟩ :=
    findItem_append_single cart p ⟨p, 1⟩ h1 rfl
  have hadd2 : addToCart (cart ++ [⟨p, 1⟩]) p = cart ++ [⟨p, (1 : Int) + 1⟩] := by
    unfold addToCart
    rw [hfind1]
    exact incrementFirst_append_no_match cart p 1 h1
  have htwo : (⟨p, (1 : Int) + 1⟩ : CartItem) = ⟨p, 2⟩ := by norm_num
  rw [hadd1, hadd2, htwo]
  exact findItem_append_single cart p ⟨p, 2⟩ h1 rfl

/-- Witness for C6 at concrete carts. -/
theorem c6_add_twice_and_zero_witness :
    findItem (addToCart (addToCart [] "p") "p") "p" = some ⟨"p", 2⟩ ∧
    findItem ((updateQuantity [⟨"p", 3⟩] "p" 0).2) "p" = none :=
  c6_add_twice_and_zero [] [⟨"p", 3⟩] "p" (by rfl) (by decide)

/-- C10: updating the quantity of a product that is not in the cart answers
404 with message "Product not found in cart" and leaves the cart as it
was. -/
theorem c10_update_missing_line_not_found (cart : List CartItem) (p : String)
    (q : Int) (h : findItem cart p = none) :
    updateQuantity cart p q = (.notFound "Product not found in cart", cart) := by
  unfold updateQuantity
  rw [h]

/-- Witness for C10 at a concrete cart. -/
theorem c10_update_missing_line_not_found_witness :
    updateQuantity [⟨"other", 2⟩] "p" 5 =
      (.notFound "Product not found in cart", [⟨"other", 2⟩]) :=
  c10_update_missing_line_not_found [⟨"other", 2⟩] "p" 5 (by decide)

/-! ## Lemmas about the coupon store -/

/-- Each user references at most one coupon document in the store; this is
the delete-then-create discipline's system invariant. -/
def AtMostOnePerUser (store : List Coupon) : Prop :=
  ∀ v, (couponsOf store v).length ≤ 1

theorem couponsOf_eraseFirstByUser_self (store : List Coupon) (u : Nat) :
    couponsOf (eraseFirstByUser store u) u = (couponsOf store u).tail := by
  induction store with
  | nil => rfl
  | cons c rest ih =>
    by_cases hc : (c.userId == u) = true
    · simp only [eraseFirstByUser, hc, if_pos, couponsOf, List.filter_cons,
        if_true, List.tail_cons]
    · simp only [eraseFirstByUser, hc, if_neg, not_false_iff, couponsOf,
        List.filter_cons, if_false, Bool.false_eq_true]
      exact ih

theorem eraseFirstByUser_sublist (store : List Coupon) (u : Nat) :
    (eraseFirstByUser store u).Sublist store := by
  induction store with
  | nil => exact List.Sublist.refl _
  | cons c rest ih =>
    by_cases hc : (c.userId == u) = true
    · simp only [eraseFirstByUser, hc, if_pos]
      exact List.sublist_cons_self c rest
    · simp only [eraseFirstByUser, hc, if_neg, not_false_iff]
      exact List.Sublist.cons₂ c ih

theorem activeCouponsOf_eq_filter (store : List Coupon) (u : Nat) :
    activeCouponsOf store u = (couponsOf store u).filter (fun c => c.isActive) := by
  unfold activeCouponsOf couponsOf
  rw [List.filter_filter]
  exact List.filter_congr (fun c _ => by rw [Bool.and_comm])

theorem activeCouponsOf_length_le (store : List Coupon) (u : Nat) :
    (activeCouponsOf store u).length ≤ (couponsOf store u).length := by
  rw [activeCouponsOf_eq_filter]
  exact List.length_filter_le _ _

theorem couponsOf_deactivateFirst (store : List Coupon) (code : String)
    (u2 v : Nat) :
    (couponsOf (deactivateFirst store code u2) v).length =
      (couponsOf store v).length := by
  induction store with
  | nil => rfl
  | cons c rest ih =>
    simp only [couponsOf] at ih ⊢
    by_cases hm : (c.code == code && c.userId == u2) = true
    · simp only [deactivateFirst, hm, if_pos, List.filter_cons]
      by_cases hv : (c.userId == v) = true
      · simp [hv]
      · simp [hv]
    · simp only [deactivateFirst, hm, if_neg, not_false_iff, List.filter_cons]
      by_cases hv : (c.userId == v) = true
      · simp [hv, ih]
      · simp [hv, ih]

theorem tail_eq_nil_of_length_le_one {α : Type} {l : List α}
    (h : l.length ≤ 1) : l.tail = [] := by
  cases l with
  | nil => rfl
  | cons a t =>
    cases t with
    | nil => rfl
    | cons b t2 => simp at h

/-! ## Claims about coupons -/

/-- C4 (counterexample): at time 100 the store can hold an active coupon
whose expiration date 90 already passed — `getCoupon` still returns it, so
an expired coupon is delivered to the client. -/
theorem c4_expired_coupon_counterexample :
    getCoupon [⟨"GIFTAB", 10, 90, 1, true⟩] 1 = some ⟨"GIFTAB", 10, 90, 1, true⟩ ∧
    (⟨"GIFTAB", 10, 90, 1, true⟩ : Coupon).expirationDate < 100 ∧
    (⟨"GIFTAB", 10, 90, 1, true⟩ : Coupon).isActive = true :=
  ⟨by rfl, by decide, by rfl⟩

/-- C4 (amended): `getCoupon` returns either null or a coupon of the
requesting user with the active flag set; expiry is not checked. -/
theorem c4_get_coupon_active (store : List Coupon) (u : Nat) (c : Coupon)
    (h : getCoupon store u = some c) : c.userId = u ∧ c.isActive = true := by
  unfold getCoupon at h
  have hp := List.find?_some h
  simpa using hp

/-- Witness for C4 (amended) at a concrete store. -/
theorem c4_get_coupon_active_witness :
    (⟨"GIFTCD", 10, 500, 3, true⟩ : Coupon).userId = 3 ∧
    (⟨"GIFTCD", 10, 500, 3, true⟩ : Coupon).isActive = true :=
  c4_get_coupon_active [⟨"GIFTCD", 10, 500, 3, true⟩] 3 _ (by rfl)

/-- C5 (counterexample): with six base-36 fractional digits available — the
typical case — the generated code's tail has six characters, not four. -/
theorem c5_code_tail_length_counterexample :
    (createNewCoupon [] 1 0 "k7p2mq").1.code = "GIFTK7P2MQ" ∧
    "GIFTK7P2MQ".length ≠ "GIFT".length + 4 :=
  ⟨by decide, by decide⟩

/-- C5 (amended): an awarded coupon has discount percentage 10, expiration
exactly 30 days (in milliseconds) past the award time, and code "GIFT"
followed by the uppercased first six base-36 fractional digits of the
random number (so up to six tail characters, six in the typical case). -/
theorem c5_new_coupon_shape (store : List Coupon) (u : Nat) (now : Int)
    (digits : String) :
    (createNewCoupon store u now digits).1.discountPercentage = 10 ∧
    (createNewCoupon store u now digits).1.expirationDate =
      now + 30 * 24 * 60 * 60 * 1000 ∧
    (createNewCoupon store u now digits).1.code =
      "GIFT" ++ String.mk ((digits.take 6).data.map Char.toUpper) :=
  ⟨rfl, rfl, rfl⟩

/-- C7: starting from a store where each user has at most one coupon, the
award step leaves its user with exactly the new active coupon (the old one
deleted), the at-most-one invariant still holds afterwards, and both the
award step and the checkout-success deactivation preserve at most one
active coupon per user. -/
theorem c7_award_exactly_one_active (store : List Coupon) (u : Nat)
    (now : Int) (digits code : String) (u2 : Nat)
    (h : AtMostOnePerUser store) :
    activeCouponsOf (createNewCoupon store u now digits).2 u =
      [(createNewCoupon store u now digits).1] ∧
    AtMostOnePerUser (createNewCoupon store u now digits).2 ∧
    (∀ v, (activeCouponsOf (createNewCoupon store u now digits).2 v).length ≤ 1) ∧
    (∀ v, (activeCouponsOf (deactivateFirst store code u2) v).length ≤ 1) := by
  set nc := (createNewCoupon store u now digits).1 with hnc
  have hstore2 : (createNewCoupon store u now digits).2 =
      eraseFirstByUser store u ++ [nc] := rfl
  have hself : couponsOf (eraseFirstByUser store u) u = [] := by
    rw [couponsOf_eraseFirstByUser_self]
    exact tail_eq_nil_of_length_le_one (h u)
  have huser : nc.userId = u := rfl
  have hactive : nc.isActive = true := rfl
  have hcoups : ∀ v, couponsOf (eraseFirstByUser store u ++ [nc]) v =
      couponsOf (eraseFirstByUser store u) v ++ couponsOf [nc] v := by
    intro v
    unfold couponsOf
    exact List.filter_append _ _
  have hmono : AtMostOnePerUser (createNewCoupon store u now digits).2 := by
    intro v
    rw [hstore2, hcoups v]
    by_cases hv : v = u
    · subst hv
      rw [hself, List.nil_append]
      exact List.length_filter_le _ _
    · have hnil : couponsOf [nc] v = [] := by
        simp [couponsOf, huser]
        intro hvu
        exact absurd hvu.symm hv
      rw [hnil, List.append_nil]
      calc (couponsOf (eraseFirstByUser store u) v).length
          ≤ (couponsOf store v).length :=
            ((eraseFirstByUser_sublist store u).filter _).length_le
        _ ≤ 1 := h v
  refine ⟨?_, hmono, ?_, ?_⟩
  · rw [hstore2, activeCouponsOf_eq_filter, hcoups u, hself, List.nil_append]
    have hone : couponsOf [nc] u = [nc] := by simp [couponsOf, huser]
    rw [hone]
    simp [hactive]
  · intro v
    exact (activeCouponsOf_length_le _ v).trans (hmono v)
  · intro v
    exact (activeCouponsOf_length_le _ v).trans
      (le_of_eq_of_le (couponsOf_deactivateFirst store code u2 v) (h v))

/-! ## Claims about the checkout session -/

/-- C1 (code-bug evaluation): for one unit priced 100.00 with an active
10-percent coupon, the handler computes `totalAmount` = 1000 cents —
`Math.round(totalAmount * discountPercentage / 100)` keeps only 10 percent
of the total — while a 10-percent discount on the 10000-cent pre-discount
total (the `percent_off` the same handler configures on the payment
session) is 9000 cents. -/
theorem c1_discount_misapplied :
    preDiscountTotal [⟨"p", 100, 1⟩] = 10000 ∧
    (createCheckoutSession [⟨"GIFTAAAA", 10, 999999999, 1, true⟩] 1 0 "abcdef"
        [⟨"p", 100, 1⟩] (some "GIFTAAAA")).totalAmountCents = 1000 ∧
    jsRound ((10000 : ℚ) * (100 - 10) / 100) = 9000 ∧
    (1000 : Int) ≠ 9000 := by
  have e1 : jsRound ((100 : ℚ) * 100) = 10000 := by
    unfold jsRound
    rw [Int.floor_eq_iff] <;> norm_num
  have e2 : preDiscountTotal [⟨"p", 100, 1⟩] = 10000 := by
    simp [preDiscountTotal, e1]
  have e0 : "GIFTAAAA".isEmpty = false := rfl
  refine ⟨e2, ?_, ?_, by decide⟩
  · simp [createCheckoutSession, truthyCode, List.find?, e2, e0]
    unfold jsRound
    rw [Int.floor_eq_iff] <;> norm_num
  · unfold jsRound
    rw [Int.floor_eq_iff] <;> norm_num

/-- C2 (counterexample): a request with pre-discount total exactly 20000
cents and an applicable 10-percent coupon does not trigger the award,
because the handler compares the post-discount `totalAmount` (2000 cents)
against the threshold. -/
theorem c2_pre_discount_threshold_counterexample :
    preDiscountTotal [⟨"p", 200, 1⟩] = 20000 ∧
    (createCheckoutSession [⟨"GIFTAAAA", 10, 999999999, 1, true⟩] 1 0 "abcdef"
        [⟨"p", 200, 1⟩] (some "GIFTAAAA")).couponAwarded = false := by
  have e1 : jsRound ((200 : ℚ) * 100) = 20000 := by
    unfold jsRound
    rw [Int.floor_eq_iff] <;> norm_num
  have e2 : preDiscountTotal [⟨"p", 200, 1⟩] = 20000 := by
    simp [preDiscountTotal, e1]
  have e0 : "GIFTAAAA".isEmpty = false := rfl
  have e3 : jsRound ((20000 : ℚ) * 10 / 100) = 2000 := by
    unfold jsRound
    rw [Int.floor_eq_iff] <;> norm_num
  refine ⟨e2, ?_⟩
  simp [createCheckoutSession, truthyCode, List.find?, e2, e0]
  rw [e3]
  norm_num

/-- C2 (amended): for every non-empty products array, a new coupon is
awarded exactly when the `totalAmount` the handler ends up with — after
any coupon reassignment — is at least 20000 cents. -/
theorem c2_award_iff_final_total (store : List Coupon) (userId : Nat)
    (now : Int) (digits : String) (products : List ProductLine)
    (couponCode : Option String) (h : products ≠ []) :
    ((createCheckoutSession store userId now digits products
        couponCode).couponAwarded = true) ↔
      20000 ≤ (createCheckoutSession store userId now digits products
        couponCode).totalAmountCents := by
  unfold createCheckoutSession
  rw [if_neg (by simp [h])]
  simp

/-- Witness for C2 (amended) at a concrete request. -/
theorem c2_award_iff_final_total_witness :
    ((createCheckoutSession [] 1 0 "abcdef" [⟨"p", 200, 1⟩]
        none).couponAwarded = true) ↔
      20000 ≤ (createCheckoutSession [] 1 0 "abcdef" [⟨"p", 200, 1⟩]
        none).totalAmountCents :=
  c2_award_iff_final_total [] 1 0 "abcdef" [⟨"p", 200, 1⟩] none (by decide)

/-- Witness for C7 at a concrete store. -/
theorem c7_award_exactly_one_active_witness :
    activeCouponsOf (createNewCoupon [] 1 0 "abcdef").2 1 =
      [(createNewCoupon [] 1 0 "abcdef").1] ∧
    AtMostOnePerUser (createNewCoupon [] 1 0 "abcdef").2 ∧
    (∀ v, (activeCouponsOf (createNewCoupon [] 1 0 "abcdef").2 v).length ≤ 1) ∧
    (∀ v, (activeCouponsOf (deactivateFirst [] "X" 2) v).length ≤ 1) :=
  c7_award_exactly_one_active [] 1 0 "abcdef" "X" 2 (fun _ => Nat.zero_le 1)

/-! ## Lemmas about the daily sales series -/

theorem getDatesInRange_eq_map :
    ∀ (n s e : Nat), n = e + 1 - s →
      getDatesInRange s e = (List.range n).map (fun i => s + i) := by
  intro n
  induction n with
  | zero =>
    intro s e hn
    rw [getDatesInRange, dif_neg (by omega)]
    simp
  | succ k ih =>
    intro s e hn
    have hse : s ≤ e := by omega
    rw [getDatesInRange, dif_pos hse, ih (s + 1) e (by omega),
      List.range_succ_eq_map, List.map_cons, List.map_map]
    have hc : ((fun i => s + i) ∘ Nat.succ) = (fun i => s + 1 + i) := by
      funext i
      simp [Function.comp]
      omega
    rw [hc]
    simp

theorem getDatesInRange_length (s e : Nat) (h : s ≤ e) :
    (getDatesInRange s e).length = e - s + 1 := by
  rw [getDatesInRange_eq_map (e + 1 - s) s e rfl, List.length_map,
    List.length_range]
  omega

theorem mem_getDatesInRange {s e d : Nat} :
    d ∈ getDatesInRange s e ↔ s ≤ d ∧ d ≤ e := by
  rw [getDatesInRange_eq_map (e + 1 - s) s e rfl]
  simp only [List.mem_map, List.mem_range]
  constructor
  · rintro ⟨i, hi, rfl⟩
    omega
  · rintro ⟨h1, h2⟩
    exact ⟨d - s, by omega, by omega⟩

theorem getDatesInRange_get (s e i : Nat)
    (hi : i < (getDatesInRange s e).length) :
    (getDatesInRange s e).get ⟨i, hi⟩ = s + i := by
  have hmap := getDatesInRange_eq_map (e + 1 - s) s e rfl
  simp [hmap, List.get_eq_getElem, List.getElem_map, List.getElem_range]

theorem find?_filterMap_by_date (l : List Nat) (f : Nat → Option DailyStat)
    (hf : ∀ x a, f x = some a → a.date = x) (d : Nat) :
    (l.filterMap f).find? (fun a => a.date == d) =
      if d ∈ l then f d else none := by
  induction l with
  | nil => simp
  | cons x t ih =>
    rw [List.filterMap_cons]
    cases hfx : f x with
    | none =>
      rw [ih]
      by_cases hx : x = d
      · subst hx
        by_cases ht : x ∈ t
        · simp [ht, hfx]
        · simp [ht, hfx]
      · have hdx : ¬ d = x := fun hh => hx hh.symm
        simp only [List.mem_cons]
        by_cases ht : d ∈ t
        · simp [ht]
        · simp [ht, hdx]
    | some a =>
      have hdate : a.date = x := hf x a hfx
      by_cases hx : x = d
      · subst hx
        rw [List.find?_cons_of_pos _ (by simp [hdate])]
        simp [List.mem_cons, hfx]
      · have hdx : ¬ d = x := fun hh => hx hh.symm
        rw [List.find?_cons_of_neg _ (by simp [hdate, hx]), ih]
        simp only [List.mem_cons]
        by_cases ht : d ∈ t
        · simp [ht]
        · simp [ht, hdx]

theorem dailySalesAgg_find (orders : List Order) (s e d : Nat)
    (hd : d ∈ getDatesInRange s e) :
    (dailySalesAgg orders s e).find? (fun data => data.date == d) =
      if (ordersOnDay (matchedOrders orders s e) d).isEmpty then none
      else some ⟨d, (ordersOnDay (matchedOrders orders s e) d).length,
        ((ordersOnDay (matchedOrders orders s e) d).map Order.totalAmount).sum⟩ := by
  unfold dailySalesAgg
  rw [find?_filterMap_by_date _ _ ?hf d, if_pos hd]
  case hf =>
    intro x a ha
    dsimp only at ha
    split at ha
    · exact absurd ha (by simp)
    · cases ha
      rfl

theorem sum_ordersOnDay_nonneg (orders : List Order) (s e d : Nat)
    (hamounts : ∀ o ∈ orders, 0 ≤ o.totalAmount) :
    0 ≤ ((ordersOnDay (matchedOrders orders s e) d).map Order.totalAmount).sum := by
  apply List.sum_nonneg
  intro x hx
  rcases List.mem_map.mp hx with ⟨o, ho, rfl⟩
  exact hamounts o (List.mem_of_mem_filter (List.mem_of_mem_filter ho))

/-! ## Claim about the daily sales series -/

/-- C8: for start and end days with start at most end, the daily series has
exactly end - start + 1 entries, the i-th entry is for day start + i (one
per calendar day, ascending), every entry has nonnegative sales and
revenue (given the order schema's nonnegative totals), and a day with no
matching order yields sales 0 and revenue 0. -/
theorem c8_daily_series (orders : List Order) (s e : Nat) (hse : s ≤ e)
    (hamounts : ∀ o ∈ orders, 0 ≤ o.totalAmount) :
    (getDailySalesData orders s e).length = e - s + 1 ∧
    (∀ i, ∀ hi : i < (getDailySalesData orders s e).length,
      ((getDailySalesData orders s e).get ⟨i, hi⟩).date = s + i) ∧
    (∀ st ∈ getDailySalesData orders s e, 0 ≤ st.sales ∧ 0 ≤ st.revenue) ∧
    (∀ st ∈ getDailySalesData orders s e,
      ordersOnDay (matchedOrders orders s e) st.date = [] →
        st.sales = 0 ∧ st.revenue = 0) := by
  refine ⟨?_, ?_, ?_, ?_⟩
  · unfold getDailySalesData
    rw [List.length_map]
    exact getDatesInRange_length s e hse
  · intro i hi
    unfold getDailySalesData at hi ⊢
    rw [List.get_eq_getElem, List.getElem_map]
    have hlen : i < (getDatesInRange s e).length := by
      simpa using hi
    have hget : (getDatesInRange s e)[i] = s + i := by
      rw [← List.get_eq_getElem (getDatesInRange s e) ⟨i, hlen⟩]
      exact getDatesInRange_get s e i hlen
    rw [hget]
    cases (dailySalesAgg orders s e).find? (fun data => data.date == s + i) <;> rfl
  · intro st hst
    unfold getDailySalesData at hst
    rcases List.mem_map.mp hst with ⟨d, hd, rfl⟩
    have hfind := dailySalesAgg_find orders s e d hd
    by_cases hemp : (ordersOnDay (matchedOrders orders s e) d).isEmpty
    · rw [if_pos hemp] at hfind
      rw [hfind]
      exact ⟨Nat.zero_le 0, le_refl (0 : ℚ)⟩
    · rw [if_neg hemp] at hfind
      rw [hfind]
      exact ⟨Nat.zero_le _, sum_ordersOnDay_nonneg orders s e d hamounts⟩
  · intro st hst hnone
    unfold getDailySalesData at hst
    rcases List.mem_map.mp hst with ⟨d, hd, rfl⟩
    have hfind := dailySalesAgg_find orders s e d hd
    by_cases hemp : (ordersOnDay (matchedOrders orders s e) d).isEmpty
    · rw [if_pos hemp] at hfind
      rw [hfind] at hnone ⊢
      exact ⟨rfl, rfl⟩
    · rw [if_neg hemp] at hfind
      rw [hfind] at hnone ⊢
      exfalso
      apply hemp
      have hx : ordersOnDay (matchedOrders orders s e) d = [] := hnone
      rw [hx]
      rfl

/-- Witness for C8 at a concrete order list and range. -/
theorem c8_daily_series_witness :
    (getDailySalesData [⟨7, 3⟩] 2 4).length = 4 - 2 + 1 ∧
    (∀ i, ∀ hi : i < (getDailySalesData [⟨7, 3⟩] 2 4).length,
      ((getDailySalesData [⟨7, 3⟩] 2 4).get ⟨i, hi⟩).date = 2 + i) ∧
    (∀ st ∈ getDailySalesData [⟨7, 3⟩] 2 4, 0 ≤ st.sales ∧ 0 ≤ st.revenue) ∧
    (∀ st ∈ getDailySalesData [⟨7, 3⟩] 2 4,
      ordersOnDay (matchedOrders [⟨7, 3⟩] 2 4) st.date = [] →
        st.sales = 0 ∧ st.revenue = 0) :=
  c8_daily_series [⟨7, 3⟩] 2 4 (by decide) (by simp)

/-! ## Claim about the token refresh -/

/-- C9: given a cookie refresh token that verifies against the refresh
secret and equals the cached token for the decoded user, the endpoint
answers with a freshly signed 15-minute access token and the cache state —
the stored refresh token and its expiry — is exactly what it was. -/
theorem c9_refresh_preserves_cache (st : RedisState) (rt : Token) (now : Int)
    (uid : Nat) (hver : jwtVerify rt refreshTokenSecret now = some uid)
    (hstored : redisGet st uid now = some rt) :
    refreshTokenEndpoint st (some rt) now =
      (.refreshed (jwtSign uid accessTokenSecret now (15 * 60 * 1000)), st) := by
  simp [refreshTokenEndpoint, hver, hstored]

/-- Witness for C9 at a concrete cache and token. -/
theorem c9_refresh_preserves_cache_witness :
    refreshTokenEndpoint [(1, ⟨⟨1, refreshTokenSecret, 50⟩, 100⟩)]
        (some ⟨1, refreshTokenSecret, 50⟩) 0 =
      (.refreshed (jwtSign 1 accessTokenSecret 0 (15 * 60 * 1000)),
        [(1, ⟨⟨1, refreshTokenSecret, 50⟩, 100⟩)]) :=
  c9_refresh_preserves_cache [(1, ⟨⟨1, refreshTokenSecret, 50⟩, 100⟩)]
    ⟨1, refreshTokenSecret, 50⟩ 0 1 (by rfl) (by rfl)

end ECom
